import Mathlib

/-!
Verification development for the stg-theology-attendance repository.

The repository is a browser-based attendance viewer/editor backed by a
Google Sheets spreadsheet.  This file gives a shallow embedding of its
data-access and consistency layer:

* `src/services/model.js` — grid parsing (`getHeader`, `getDataRows`),
  address mapping (`getRowAddress`, `getColAddress`) and status-normalising
  equality (`isEqualStatus`);
* `src/utils/attendanceStatus.js` — `ATTENDANCE_CONFIG` and
  `parseAttendanceCell`;
* `src/services/GoogleSheetsAuth.js` — token caching
  (`isTokenValid`, `authenticate`, `ensureValidToken`);
* `src/services/GoogleSheetsData.js` — `makeApiRequest` (401 retry policy),
  `getCurrentCellValue` and `updateCellWithCAS`;
* `src/hooks/useGoogleSheets.js` — `getSheetCellAddress`,
  `parseCellAddress`, the optimistic `updateCell` flow, and `fetchData`
  with its abort-controller cancellation protocol.

JavaScript strings are modelled by `String`; a possibly `null`/`undefined`
string is `Option String`.  Where the source only ever distinguishes
`undefined` cells from present cells through JS truthiness, a missing cell
is modelled as `""` (both are falsy and the source never observes the
difference).  JS exceptions are modelled by `Option`/sum results.  Heap
aliasing of JS arrays, where it matters (the optimistic update of
`updateCell` and the abort controllers of `fetchData`), is modelled by an
explicit heap of array objects addressed by `Nat` references.
-/

namespace STA

/-! ### JavaScript string primitives

`String.prototype.trim`, `toLowerCase`, `split('.')`, `parseInt(s, 10)` and
decimal rendering of numbers, modelled over the character list of the
string.  `isWSChar` covers the ASCII whitespace class (space and U+0009 to
U+000D), which is the only whitespace the data model ever meets. -/

def isWSChar (c : Char) : Bool :=
  c.toNat = 32 || (decide (9 ≤ c.toNat) && decide (c.toNat ≤ 13))

def isDigitCh (c : Char) : Bool :=
  decide (48 ≤ c.toNat) && decide (c.toNat ≤ 57)

def isUpperAZ (c : Char) : Bool :=
  decide (65 ≤ c.toNat) && decide (c.toNat ≤ 90)

def trimChars (l : List Char) : List Char :=
  ((l.dropWhile isWSChar).reverse.dropWhile isWSChar).reverse

def jsTrim (s : String) : String :=
  String.mk (trimChars s.data)

def jsToLower (s : String) : String :=
  String.mk (s.data.map Char.toLower)

/-- Value of a digit list read in base 10, as by the regex capture
`(\d+)` fed to `parseInt(..., 10)`. -/
def digitsVal (l : List Char) : Nat :=
  l.foldl (fun a c => a * 10 + (c.toNat - 48)) 0

/-- Fuel-driven decimal rendering; `natToDigits` supplies enough fuel. -/
def natToDigitsGo : Nat → Nat → List Char
  | 0, _ => []
  | fuel + 1, n =>
    if n < 10 then [Nat.digitChar n]
    else natToDigitsGo fuel (n / 10) ++ [Nat.digitChar (n % 10)]

/-- Decimal digits of `n`, most significant first: the characters JS
produces for a nonnegative integer interpolated into a template string. -/
def natToDigits (n : Nat) : List Char :=
  natToDigitsGo (n + 1) n

def jsNumToString (n : Nat) : String :=
  String.mk (natToDigits n)

/-- `split('.')` over the character list. -/
def splitOnDot : List Char → List (List Char)
  | [] => [[]]
  | c :: t =>
    let r := splitOnDot t
    if c.toNat = 46 then [] :: r
    else
      match r with
      | h :: rest => (c :: h) :: rest
      | [] => [[c]]

/-- `parseInt(s, 10)`: skip leading whitespace, optional sign, then the
maximal digit prefix; `none` is `NaN`. -/
def parseIntBase10 (s : String) : Option Int :=
  match s.data.dropWhile isWSChar with
  | [] => none
  | c :: t =>
    if c.toNat = 45 then
      let ds := t.takeWhile isDigitCh
      if ds = [] then none else some (-(digitsVal ds : Int))
    else if c.toNat = 43 then
      let ds := t.takeWhile isDigitCh
      if ds = [] then none else some ((digitsVal ds : Int))
    else
      let ds := (c :: t).takeWhile isDigitCh
      if ds = [] then none else some ((digitsVal ds : Int))

/-! ### attendanceStatus.js — statuses, config, `parseAttendanceCell`

Statuses are the string tags of the source (`ATTENDANCE_STATUS`): PRESENT
is the tag `O`, ABSENT is `X`, ESSAY is `ㅁ`, LATE is `ㅣ`, EARLY_LEAVE is
`ㄷ`, OTHER is `Etc` and NONE is `None`.  `ATTENDANCE_CONFIG` is the
metadata object keyed by those tags; in the source the entries for the
LATE and EARLY_LEAVE tags are commented out, so looking them up yields
`undefined` — here `none`. -/

structure AttendanceStatusConfig where
  displayName : String
  displayShortName : String
  shortName : String
  isAttendance : Bool
  color : String
  icon : String
  description : String
deriving DecidableEq, Repr

def ATTENDANCE_CONFIG : String → Option AttendanceStatusConfig
  | "O" => some ⟨"출석", "O", "O", true, "green", "✓", "정상 출석"⟩
  | "X" => some ⟨"결석", "X", "X", false, "red", "✗", "결석"⟩
  | "ㅁ" => some ⟨"소감문", "소감문", "ㅁ", true, "blue", "📝", "소감문 제출로 출석 인정"⟩
  | "Etc" => some ⟨"기타", "기타", "Etc", false, "orange", "📋", "기타 사유로 출석 인정"⟩
  | "None" => some ⟨"미입력", "-", "-", false, "gray", "—", "출석 정보가 입력되지 않음"⟩
  | _ => none

structure AttendanceMark where
  status : String
  desc : String
deriving DecidableEq, Repr

/-- `parseAttendanceCell(cellValue)` of attendanceStatus.js.  A missing
(`undefined`) cell is passed in as `""` (both are falsy, and the source
only tests truthiness before calling `toString`).  The result is `none`
when the source throws: for the LATE (`ㅣ`) and EARLY_LEAVE (`ㄷ`) tags it
reads `.displayName` of the missing (commented-out) `ATTENDANCE_CONFIG`
entry, a TypeError. -/
def parseAttendanceCell (cellValue : String) : Option AttendanceMark :=
  if cellValue = "" || jsTrim cellValue = "" || jsTrim cellValue = "-" then
    some ⟨"None", ""⟩
  else
    let value := jsTrim cellValue
    if value = "O" then some ⟨"O", ""⟩
    else if value = "X" then some ⟨"X", ""⟩
    else if value = "ㅁ" then
      (ATTENDANCE_CONFIG "ㅁ").map fun cfg => ⟨"ㅁ", cfg.displayName⟩
    else if value = "ㅣ" then
      (ATTENDANCE_CONFIG "ㅣ").map fun cfg => ⟨"ㅣ", cfg.displayName⟩
    else if value = "ㄷ" then
      (ATTENDANCE_CONFIG "ㄷ").map fun cfg => ⟨"ㄷ", cfg.displayName⟩
    else some ⟨"Etc", value⟩

/-! ### model.js — header and roster parsing, addresses, status equality -/

/-- `new Date(year, monthIndex, day)` as constructed by
`parseDateString`, represented by its constructor arguments. -/
structure JsDate where
  year : Int
  monthIndex : Int
  day : Int
deriving DecidableEq, Repr

/-- `parseDateString` of model.js: trim, `split('.')`, trim parts, drop
empty parts, demand exactly three numeric parts, else `null`. -/
def parseDateString (dateString : String) : Option JsDate :=
  if dateString = "" then none
  else
    let dateStr := jsTrim dateString
    let parts := ((splitOnDot dateStr.data).map trimChars).filter (fun p => p ≠ [])
    match parts with
    | [p1, p2, p3] =>
      match parseIntBase10 (String.mk p1), parseIntBase10 (String.mk p2),
          parseIntBase10 (String.mk p3) with
      | some y, some m, some d => some ⟨y, m - 1, d⟩
      | _, _, _ => none
    | _ => none

structure Header where
  lecture : String
  date : Option JsDate
deriving DecidableEq, Repr

/-- Loop body of `getHeader` at column `i`: skip (`continue`) when the
lecture cell or the date cell is empty or missing, else push the trimmed
lecture label and the parsed date. -/
def headerEntryAt (lectureRow dateRow : List String) (i : Nat) : Option Header :=
  let lecture := lectureRow.getD i ""
  let dateString := dateRow.getD i ""
  if lecture = "" || dateString = "" then none
  else some ⟨jsTrim lecture, parseDateString dateString⟩

/-- `getHeader(values)` of model.js: empty result below two rows, else the
loop `for (let i = 2; i < lectureRow.length; i++)` collecting
`headerEntryAt` hits. -/
def getHeader (values : List (List String)) : List Header :=
  if values.length < 2 then []
  else
    let lectureRow := values.getD 0 []
    let dateRow := values.getD 1 []
    (List.range' 2 (lectureRow.length - 2)).filterMap (headerEntryAt lectureRow dateRow)

structure UserInfo where
  name : String
  className : String
deriving DecidableEq, Repr

/-- `parseUserInfo(nameCell, classCell)`: trim each cell, empty for a
falsy cell.  The source field named `class` is `className` here. -/
def parseUserInfo (nameCell classCell : String) : UserInfo :=
  ⟨if nameCell = "" then "" else jsTrim nameCell,
   if classCell = "" then "" else jsTrim classCell⟩

structure DataRow where
  user : UserInfo
  attendance : List AttendanceMark
deriving DecidableEq, Repr

/-- Sequential `Array.prototype.map` with a callback that can throw:
`none` when any element throws, exactly as the JS exception aborts the
whole map. -/
def optionMapList (f : α → Option β) : List α → Option (List β)
  | [] => some []
  | a :: t =>
    match f a, optionMapList f t with
    | some b, some bs => some (b :: bs)
    | _, _ => none

/-- `parseAttendanceInfo(row, headerLength)`: one `parseAttendanceCell`
per header index, reading the cell at column `i + 2`. -/
def parseAttendanceInfo (row : List String) (headerLength : Nat) :
    Option (List AttendanceMark) :=
  optionMapList (fun i => parseAttendanceCell (row.getD (i + 2) "")) (List.range headerLength)

/-- `getDataRows(values, headerLength)` of model.js: drop the two header
rows, map each row to a user/attendance record, drop rows whose user name
is empty. -/
def getDataRows (values : List (List String)) (headerLength : Nat) :
    Option (List DataRow) :=
  if values.length ≤ 2 then some []
  else
    (optionMapList
        (fun row => (parseAttendanceInfo row headerLength).map
          (fun att => ⟨parseUserInfo (row.getD 0 "") (row.getD 1 ""), att⟩))
        (values.drop 2)).map
      (fun rows => rows.filter (fun item => item.user.name ≠ ""))

/-- `getRowAddress(rowIndex)` of model.js. -/
def getRowAddress (rowIndex : Nat) : Nat := rowIndex + 3

/-- `getColAddress(colIndex)` of model.js: `String.fromCharCode(67 + colIndex)`. -/
def getColAddress (colIndex : Nat) : String :=
  String.mk [Char.ofNat (67 + colIndex)]

/-- The `emptyStates` list of `isEqualStatus`. -/
def emptyStates : List String :=
  ["", "-", "none", "null", "undefined", "미기록", "N/A", "n/a"]

/-- The inner `normalize` of `isEqualStatus`: falsy values and every
spelling of the unrecorded state become `""`, everything else is trimmed. -/
def normalizeForStatus (value : Option String) : String :=
  match value with
  | none => ""
  | some s =>
    if s = "" then ""
    else
      let trimmed := jsTrim s
      if emptyStates.contains (jsToLower trimmed) then "" else trimmed

/-- `isEqualStatus(value1, value2)` of model.js: normalise both sides,
compare case-insensitively. -/
def isEqualStatus (value1 value2 : Option String) : Bool :=
  jsToLower (normalizeForStatus value1) == jsToLower (normalizeForStatus value2)

/-! ### useGoogleSheets.js — cell addressing, optimistic update, fetch races -/

/-- `getSheetCellAddress(rowIndex, colIndex)` of the hook: the template
string of the column letter and the 1-based sheet row. -/
def getSheetCellAddress (rowIndex colIndex : Nat) : String :=
  getColAddress colIndex ++ jsNumToString (getRowAddress rowIndex)

/-- `parseCellAddress(cellAddress)` of the hook: match the regex
`([A-Z]+)(\d+)` anchored at both ends, read the letters in base 26
(A is 1), subtract the fixed offsets.  `none` is the thrown format
error. -/
def parseCellAddress (cellAddress : String) : Option (Int × Int) :=
  let cs := cellAddress.data
  let colLetters := cs.takeWhile isUpperAZ
  let rest := cs.dropWhile isUpperAZ
  if colLetters ≠ [] && rest ≠ [] && rest.all isDigitCh then
    let colIndex : Int :=
      (colLetters.foldl (fun a c => a * 26 + (c.toNat - 65 + 1)) 0 : Nat) - 1
    let rowNumber : Int := (digitsVal rest : Int)
    some (rowNumber - 3, colIndex - 2)
  else none

/-- The inline `newAttendanceItem` computation of `updateCell`. -/
def parseNewAttendanceItem (newValue : String) : AttendanceMark :=
  if newValue = "" || jsTrim newValue = "" || jsTrim newValue = "-" then ⟨"None", ""⟩
  else if jsTrim newValue = "X" then ⟨"X", ""⟩
  else if jsTrim newValue = "O" then ⟨"O", ""⟩
  else ⟨"Etc", jsTrim newValue⟩

/-- Outcome of the `updateCellWithCAS` network call as seen by
`updateCell`'s catch block. -/
inductive CasCallResult
  | ok
  | conflictErr
  | otherErr
deriving DecidableEq, Repr

/-- The local-state effect of `updateCell(rowIndex, colIndex, newValue)`.

JS array objects live in `heap`, addressed by `Nat` references; the React
state `data` holds the reference `dataRef` to its `dataRows` array.
The source's `const updatedData = { ...data }` is a shallow copy, so
`updatedData.dataRows` is the same array object (`updatedDataRef =
dataRef`), and the optimistic write
`updatedData.dataRows[rowIndex] = updatedRow` is a store into that shared
array.  `headersLen` is `data.headers.length` for the bounds check;
`none` is the thrown range error (nothing mutated).  The result is the
heap after the call together with the reference the final `setData`
left visible (`updatedData` on success and on CAS conflict, `data` on the
generic-error rollback path). -/
def runUpdateCell (heap : List (List DataRow)) (dataRef : Nat) (headersLen : Nat)
    (rowIndex colIndex : Nat) (newValue : String) (cas : CasCallResult) :
    Option (List (List DataRow) × Nat) :=
  let rows := heap.getD dataRef []
  if rowIndex < rows.length && colIndex < headersLen then
    let updatedDataRef := dataRef
    let targetRow := rows.getD rowIndex ⟨⟨"", ""⟩, []⟩
    let updatedRow : DataRow :=
      { targetRow with
        attendance := targetRow.attendance.set colIndex (parseNewAttendanceItem newValue) }
    let heap1 := heap.set updatedDataRef (rows.set rowIndex updatedRow)
    match cas with
    | .ok => some (heap1, updatedDataRef)
    | .conflictErr => some (heap1, updatedDataRef)
    | .otherErr => some (heap1, dataRef)
  else none

/-- The in-memory attendance mark at `(rowIndex, colIndex)` of the model
object `ref` points to. -/
def markAt (heap : List (List DataRow)) (ref rowIndex colIndex : Nat) : AttendanceMark :=
  ((heap.getD ref []).getD rowIndex ⟨⟨"", ""⟩, []⟩).attendance.getD colIndex ⟨"None", ""⟩

/-- Shared state of `fetchData`: the heap of `AbortController` objects
(`true` = aborted), `abortControllerRef.current`, and the `data` model
slot (abstracted to the fetched payload). -/
structure FetchSim where
  controllers : List Bool
  abortRef : Option Nat
  model : Option String
deriving DecidableEq, Repr

/-- Entry of `fetchData`: abort the controller the ref points to, install
a fresh controller.  Returns the new state and the reference of the
controller belonging to this call. -/
def fetchStart (s : FetchSim) : FetchSim × Nat :=
  let s1 :=
    match s.abortRef with
    | some c => { s with controllers := s.controllers.set c true }
    | none => s
  let cid := s1.controllers.length
  ({ s1 with controllers := s1.controllers ++ [false], abortRef := some cid }, cid)

/-- The post-await guard `abortControllerRef.current?.signal.aborted`:
it consults whatever controller the shared ref currently holds (falsy
when the ref is `null`), not the controller of the resuming call. -/
def refAborted (s : FetchSim) : Bool :=
  match s.abortRef with
  | some c => s.controllers.getD c false
  | none => false

/-- Resumption of a `fetchData` call when its network response arrives
(the response promise is never wired to the abort signal, so it always
resolves): apply `handleSuccess(result)` unless the guard fires, then the
`finally` block clears the shared ref. -/
def fetchResolve (s : FetchSim) (payload : String) : FetchSim :=
  let s1 := if refAborted s then s else { s with model := some payload }
  { s1 with abortRef := none }

/-! ### GoogleSheetsAuth.js — token cache -/

/-- The token slot of the `GoogleSheetsAuth` singleton:
`accessToken` and `tokenExpiryTime` (absolute, in ms). -/
structure AuthState where
  accessToken : Option String
  tokenExpiryTime : Option Int
deriving DecidableEq, Repr

def jsTruthyStr : Option String → Bool
  | none => false
  | some s => s ≠ ""

def jsTruthyInt : Option Int → Bool
  | none => false
  | some n => n ≠ 0

/-- `isTokenValid()`:
`!!(this.accessToken && this.tokenExpiryTime && Date.now() < this.tokenExpiryTime)`. -/
def isTokenValid (a : AuthState) (now : Int) : Bool :=
  jsTruthyStr a.accessToken && jsTruthyInt a.tokenExpiryTime &&
    (match a.tokenExpiryTime with
     | some e => decide (now < e)
     | none => false)

/-- `clearAuthentication()`. -/
def clearAuthentication (_ : AuthState) : AuthState := ⟨none, none⟩

/-- `getAccessToken(jwt)` given the token endpoint's answer: on success
store the bearer token and `now + (expires_in - 300) * 1000`.  The oracle
`resp` stands for the whole sign-and-exchange round trip; `.error` is a
thrown failure. -/
def getAccessToken (now : Int) (resp : Except String (String × Int)) :
    Except String AuthState :=
  match resp with
  | .error e => .error e
  | .ok (tok, expiresIn) => .ok ⟨some tok, some (now + (expiresIn - 300) * 1000)⟩

instance {ε α : Type} [DecidableEq ε] [DecidableEq α] : DecidableEq (Except ε α) := fun x y =>
  match x, y with
  | .ok a, .ok b => if h : a = b then isTrue (by rw [h]) else isFalse (by simp [h])
  | .error a, .error b => if h : a = b then isTrue (by rw [h]) else isFalse (by simp [h])
  | .ok _, .error _ => isFalse (by simp)
  | .error _, .ok _ => isFalse (by simp)

/-- Result of a call into the auth layer: the token slot afterwards, how
many token-exchange network calls were made, and the returned value or
thrown error. -/
structure AuthRun where
  state : AuthState
  exchanges : Nat
  result : Except String Unit
deriving DecidableEq, Repr

/-- `authenticate(credentials)`: reuse a valid token, else run the
JWT-sign/token-exchange chain; on failure clear the slot and rethrow. -/
def authenticate (a : AuthState) (now : Int) (resp : Except String (String × Int)) :
    AuthRun :=
  if isTokenValid a now then ⟨a, 0, .ok ()⟩
  else
    match getAccessToken now resp with
    | .ok a1 => ⟨a1, 1, .ok ()⟩
    | .error e => ⟨clearAuthentication a, 1, .error e⟩

structure EnsureRun where
  state : AuthState
  exchanges : Nat
  result : Except String (Option String)
deriving DecidableEq, Repr

/-- `ensureValidToken(credentials)`: authenticate when the cached token is
missing or expired, then return `this.accessToken`. -/
def ensureValidToken (a : AuthState) (now : Int) (resp : Except String (String × Int)) :
    EnsureRun :=
  if isTokenValid a now then ⟨a, 0, .ok a.accessToken⟩
  else
    let r := authenticate a now resp
    match r.result with
    | .ok _ => ⟨r.state, r.exchanges, .ok r.state.accessToken⟩
    | .error e => ⟨r.state, r.exchanges, .error e⟩

/-! ### GoogleSheetsData.js — gateway retry policy, CAS, cell read -/

structure HttpResponse where
  status : Nat
  body : String
deriving DecidableEq, Repr

/-- `response.ok`: status in the 2xx range. -/
def respOk (r : HttpResponse) : Bool :=
  decide (200 ≤ r.status) && decide (r.status < 300)

inductive ApiFailure
  | authError (msg : String)
  | apiError (status : Nat)
deriving DecidableEq, Repr

structure ApiRun where
  authState : AuthState
  fetches : Nat
  exchanges : Nat
  result : Except ApiFailure String
deriving DecidableEq, Repr

/-- `makeApiRequest(url, options)`: `ensureValidToken`, one fetch; on a
401 clear the token slot, `authenticate`, retry the fetch exactly once and
surface a second failure as the fatal request-retry error; any other
non-2xx is surfaced directly.  `ensureExch` and `reauthExch` are the
token-endpoint oracles for the initial check and the forced re-auth,
`resp1`/`resp2` the responses of the first fetch and of the retry. -/
def makeApiRequest (a : AuthState) (now : Int)
    (ensureExch reauthExch : Except String (String × Int))
    (resp1 resp2 : HttpResponse) : ApiRun :=
  let e := ensureValidToken a now ensureExch
  match e.result with
  | .error msg => ⟨e.state, 0, e.exchanges, .error (.authError msg)⟩
  | .ok _ =>
    if respOk resp1 then ⟨e.state, 1, e.exchanges, .ok resp1.body⟩
    else if resp1.status = 401 then
      let cleared := clearAuthentication e.state
      let r := authenticate cleared now reauthExch
      match r.result with
      | .error msg => ⟨r.state, 1, e.exchanges + r.exchanges, .error (.authError msg)⟩
      | .ok _ =>
        if respOk resp2 then ⟨r.state, 2, e.exchanges + r.exchanges, .ok resp2.body⟩
        else ⟨r.state, 2, e.exchanges + r.exchanges, .error (.apiError resp2.status)⟩
    else ⟨e.state, 1, e.exchanges, .error (.apiError resp1.status)⟩

/-- `getCurrentCellValue`'s extraction `data.values?.[0]?.[0] || ''` from
a successful read response whose `values` grid may be absent. -/
def getCurrentCellValue (values : Option (List (List String))) : String :=
  match values with
  | none => ""
  | some rows =>
    match rows.head? with
    | none => ""
    | some r =>
      match r.head? with
      | none => ""
      | some c => if c = "" then "" else c

/-- One CAS attempt as a function of what step 1 read.  `written` records
that `updateCell` (the single-cell write) was invoked with the new value,
annotated with `previousValue = currentValue`; `conflict` is the thrown
`CONFLICT:` error carrying the normalised current value, and in that
branch the source throws before any write. -/
inductive CASStep
  | written (newValue : String) (previousValue : Option String)
  | conflict (currentValue : String)
deriving DecidableEq, Repr

def casWritePerformed : CASStep → Bool
  | .written _ _ => true
  | .conflict _ => false

/-- `updateCellWithCAS(..., newValue, expectedValue)` after step 1 read
`currentValue`: normalise both sides with `(v || '').toString().trim()`,
gate the write on `isEqualStatus`. -/
def updateCellWithCAS (currentValue expectedValue : Option String)
    (newValue : String) : CASStep :=
  let normalizedCurrent := jsTrim (currentValue.getD "")
  let normalizedExpected := jsTrim (expectedValue.getD "")
  if isEqualStatus (some normalizedCurrent) (some normalizedExpected) then
    CASStep.written newValue currentValue
  else
    CASStep.conflict normalizedCurrent

/-! ### Auxiliary list and string lemmas -/

theorem dropWhile_head?_false (p : α → Bool) (l : List α) :
    ∀ a, (l.dropWhile p).head? = some a → p a = false := by
  induction l with
  | nil => intro a h; simp [List.dropWhile] at h
  | cons b t ih =>
    intro a h
    by_cases hb : p b = true
    · rw [List.dropWhile_cons, if_pos hb] at h
      exact ih a h
    · rw [List.dropWhile_cons, if_neg hb] at h
      simp only [List.head?_cons, Option.some.injEq] at h
      rw [← h]
      exact Bool.eq_false_iff.2 hb

theorem dropWhile_eq_self_of_head (p : α → Bool) (l : List α)
    (h : ∀ a, l.head? = some a → p a = false) : l.dropWhile p = l := by
  cases l with
  | nil => rfl
  | cons b t =>
    rw [List.dropWhile_cons, if_neg]
    simp [h b rfl]

theorem getLast?_dropWhile_of_ne_nil (p : α → Bool) (l : List α)
    (h : l.dropWhile p ≠ []) : (l.dropWhile p).getLast? = l.getLast? := by
  induction l with
  | nil => simp [List.dropWhile] at h
  | cons b t ih =>
    by_cases hb : p b = true
    · rw [List.dropWhile_cons, if_pos hb] at h ⊢
      have ht : t ≠ [] := by
        intro he
        rw [he] at h
        simp [List.dropWhile] at h
      rw [ih h]
      cases t with
      | nil => exact absurd rfl ht
      | cons c u => rw [List.getLast?_cons_cons]
    · rw [List.dropWhile_cons, if_neg hb]

theorem getLast?_reverse' (l : List α) : l.reverse.getLast? = l.head? := by
  cases l with
  | nil => rfl
  | cons a t => simp [List.reverse_cons, List.getLast?_concat]

theorem head?_reverse' (l : List α) : l.reverse.head? = l.getLast? := by
  have h := getLast?_reverse' l.reverse
  rw [List.reverse_reverse] at h
  exact h.symm

theorem trimChars_idem (l : List Char) : trimChars (trimChars l) = trimChars l := by
  by_cases hB : (l.dropWhile isWSChar).reverse.dropWhile isWSChar = []
  · simp [trimChars, hB]
  · have hBhead := dropWhile_head?_false isWSChar (l.dropWhile isWSChar).reverse
    have hlastB : ((l.dropWhile isWSChar).reverse.dropWhile isWSChar).getLast?
        = (l.dropWhile isWSChar).head? := by
      rw [getLast?_dropWhile_of_ne_nil _ _ hB, getLast?_reverse']
    have step1 : ((l.dropWhile isWSChar).reverse.dropWhile isWSChar).reverse.dropWhile isWSChar
        = ((l.dropWhile isWSChar).reverse.dropWhile isWSChar).reverse := by
      apply dropWhile_eq_self_of_head
      intro a h
      rw [head?_reverse', hlastB] at h
      exact dropWhile_head?_false isWSChar l a h
    have step2 : ((l.dropWhile isWSChar).reverse.dropWhile isWSChar).dropWhile isWSChar
        = (l.dropWhile isWSChar).reverse.dropWhile isWSChar :=
      dropWhile_eq_self_of_head _ _ hBhead
    unfold trimChars
    rw [step1, List.reverse_reverse, step2]

theorem jsTrim_idem (s : String) : jsTrim (jsTrim s) = jsTrim s :=
  congrArg String.mk (trimChars_idem s.data)

theorem normalizeForStatus_trim (v : Option String) :
    normalizeForStatus (some (jsTrim (v.getD ""))) = normalizeForStatus v := by
  cases v with
  | none => decide
  | some s =>
    by_cases hs : s = ""
    · subst hs; decide
    · show normalizeForStatus (some (jsTrim s)) = normalizeForStatus (some s)
      by_cases ht : jsTrim s = ""
      · have hR : normalizeForStatus (some s) = "" := by
          simp only [normalizeForStatus, if_neg hs, ht]
          simp
        have hL : normalizeForStatus (some "") = "" := by decide
        rw [ht, hL, hR]
      · simp only [normalizeForStatus]
        rw [if_neg hs, if_neg ht, jsTrim_idem]

theorem isEqualStatus_trim (cur exp : Option String) :
    isEqualStatus (some (jsTrim (cur.getD ""))) (some (jsTrim (exp.getD ""))) =
      isEqualStatus cur exp := by
  unfold isEqualStatus
  rw [normalizeForStatus_trim, normalizeForStatus_trim]

theorem digitChar_toNat (d : Nat) (h : d < 10) :
    (Nat.digitChar d).toNat = 48 + d := by
  interval_cases d <;> decide

theorem natToDigitsGo_spec :
    ∀ fuel n, n < fuel →
      natToDigitsGo fuel n ≠ [] ∧
      (∀ c ∈ natToDigitsGo fuel n, 48 ≤ c.toNat ∧ c.toNat ≤ 57) ∧
      digitsVal (natToDigitsGo fuel n) = n := by
  intro fuel
  induction fuel with
  | zero => intro n h; exact absurd h (Nat.not_lt_zero n)
  | succ f ih =>
    intro n hn
    by_cases h10 : n < 10
    · simp only [natToDigitsGo, if_pos h10]
      refine ⟨by simp, ?_, ?_⟩
      · intro c hc
        simp only [List.mem_singleton] at hc
        subst hc
        rw [digitChar_toNat n h10]
        omega
      · simp [digitsVal, digitChar_toNat n h10]
    · simp only [natToDigitsGo, if_neg h10]
      have hrec : n / 10 < f := by
        have h1 : n / 10 < n := Nat.div_lt_self (by omega) (by omega)
        omega
      obtain ⟨hne, hdig, hval⟩ := ih (n / 10) hrec
      refine ⟨by simp, ?_, ?_⟩
      · intro c hc
        rcases List.mem_append.1 hc with h | h
        · exact hdig c h
        · simp only [List.mem_singleton] at h
          subst h
          rw [digitChar_toNat (n % 10) (Nat.mod_lt _ (by omega))]
          omega
      · have happ : digitsVal (natToDigitsGo f (n / 10) ++ [Nat.digitChar (n % 10)]) =
            digitsVal (natToDigitsGo f (n / 10)) * 10 + ((Nat.digitChar (n % 10)).toNat - 48) := by
          simp [digitsVal, List.foldl_append]
        rw [happ, hval, digitChar_toNat (n % 10) (Nat.mod_lt _ (by omega))]
        omega

theorem natToDigits_spec (n : Nat) :
    natToDigits n ≠ [] ∧ (∀ c ∈ natToDigits n, 48 ≤ c.toNat ∧ c.toNat ≤ 57) ∧
      digitsVal (natToDigits n) = n :=
  natToDigitsGo_spec (n + 1) n (Nat.lt_succ_self n)

theorem parseCellAddress_cons (ch : Char) (hch : isUpperAZ ch = true) (n : Nat) :
    parseCellAddress (String.mk (ch :: natToDigits n)) =
      some ((n : Int) - 3, (ch.toNat : Int) - 67) := by
  obtain ⟨hne, hdig, hval⟩ := natToDigits_spec n
  have h65 : 65 ≤ ch.toNat ∧ ch.toNat ≤ 90 := by
    simpa [isUpperAZ] using hch
  obtain ⟨d, D, hD⟩ := List.exists_cons_of_ne_nil hne
  have hdbounds : 48 ≤ d.toNat ∧ d.toNat ≤ 57 :=
    hdig d (by rw [hD]; exact List.mem_cons_self d D)
  have hdfail : isUpperAZ d = false := by
    have h1 : decide (65 ≤ d.toNat) = false := decide_eq_false (by omega)
    simp [isUpperAZ, h1]
  have htake : (ch :: natToDigits n).takeWhile isUpperAZ = [ch] := by
    rw [hD, List.takeWhile_cons, if_pos hch, List.takeWhile_cons, if_neg (by simp [hdfail])]
  have hdrop : (ch :: natToDigits n).dropWhile isUpperAZ = natToDigits n := by
    rw [List.dropWhile_cons, if_pos hch, hD, List.dropWhile_cons, if_neg (by simp [hdfail])]
  have hall : (natToDigits n).all isDigitCh = true := by
    rw [List.all_eq_true]
    intro c hc
    have hb := hdig c hc
    simp only [isDigitCh, Bool.and_eq_true, decide_eq_true_eq]
    omega
  simp only [parseCellAddress]
  simp only [htake, hdrop, hall, hval]
  rw [if_pos (by simp [hne])]
  simp only [List.foldl_cons, List.foldl_nil, Option.some.injEq, Prod.mk.injEq]
  constructor
  · trivial
  · omega

theorem getSheetCellAddress_eq (rowIndex colIndex : Nat) :
    getSheetCellAddress rowIndex colIndex =
      String.mk (Char.ofNat (67 + colIndex) :: natToDigits (rowIndex + 3)) := rfl

theorem optionMapList_length (f : α → Option β) :
    ∀ (l : List α) (l2 : List β), optionMapList f l = some l2 → l2.length = l.length := by
  intro l
  induction l with
  | nil =>
    intro l2 h
    simp only [optionMapList, Option.some.injEq] at h
    simp [← h]
  | cons a t ih =>
    intro l2 h
    simp only [optionMapList] at h
    cases hfa : f a with
    | none => rw [hfa] at h; simp at h
    | some b =>
      rw [hfa] at h
      cases hrec : optionMapList f t with
      | none => rw [hrec] at h; simp at h
      | some bs =>
        rw [hrec] at h
        have h2 : some (b :: bs) = some l2 := h
        have h3 : b :: bs = l2 := by injection h2
        rw [← h3]
        simp [ih bs hrec]

theorem optionMapList_mem (f : α → Option β) :
    ∀ (l : List α) (l2 : List β), optionMapList f l = some l2 →
      ∀ b ∈ l2, ∃ a ∈ l, f a = some b := by
  intro l
  induction l with
  | nil =>
    intro l2 h b hb
    simp only [optionMapList, Option.some.injEq] at h
    rw [← h] at hb
    simp at hb
  | cons a t ih =>
    intro l2 h b hb
    simp only [optionMapList] at h
    cases hfa : f a with
    | none => rw [hfa] at h; simp at h
    | some c =>
      rw [hfa] at h
      cases hrec : optionMapList f t with
      | none => rw [hrec] at h; simp at h
      | some bs =>
        rw [hrec] at h
        have h2 : some (c :: bs) = some l2 := h
        have h3 : c :: bs = l2 := by injection h2
        rw [← h3] at hb
        rcases List.mem_cons.1 hb with hb | hb
        · exact ⟨a, List.mem_cons_self a t, by rw [hfa, hb]⟩
        · obtain ⟨a2, ha2, hfa2⟩ := ih bs hrec b hb
          exact ⟨a2, List.mem_cons_of_mem a ha2, hfa2⟩

/-! ### Claim theorems -/

/-- C1: `updateCellWithCAS` performs the single-cell write if and only if
`isEqualStatus` holds between the value read in step 1 and the expected
value; when it does not hold it raises the conflict error carrying the
current value (as normalised by the source, i.e. trimmed) and the write is
never performed. -/
theorem updateCellWithCAS_write_gate (cur exp : Option String) (new : String) :
    casWritePerformed (updateCellWithCAS cur exp new) = isEqualStatus cur exp ∧
    (isEqualStatus cur exp = false →
      updateCellWithCAS cur exp new = CASStep.conflict (jsTrim (cur.getD ""))) := by
  simp only [updateCellWithCAS]
  rw [isEqualStatus_trim]
  cases hEq : isEqualStatus cur exp with
  | true => simp [casWritePerformed]
  | false => simp [casWritePerformed]

theorem updateCellWithCAS_write_gate_witness :
    isEqualStatus (some "X") (some "O") = false ∧
    updateCellWithCAS (some "X") (some "O") "O" =
      CASStep.conflict (jsTrim ((some "X").getD "")) :=
  ⟨by decide, (updateCellWithCAS_write_gate (some "X") (some "O") "O").2 (by decide)⟩

/-- C2: the rollback path of `updateCell` does not restore the pre-call
mark.  `const updatedData = { ...data }` shares the `dataRows` array with
`data`, so the optimistic store `updatedData.dataRows[rowIndex] =
updatedRow` also mutates the array `data` references; after a generic
(non-conflict) failure, `setData(data)` re-installs the original model
object, but the mark at `(0, 0)` is the new value `X`, not the pre-call
value `O`. -/
theorem updateCell_rollback_fails :
    runUpdateCell [[⟨⟨"홍길동", "A반"⟩, [⟨"O", ""⟩]⟩]] 0 1 0 0 "X" CasCallResult.otherErr =
      some ([[⟨⟨"홍길동", "A반"⟩, [⟨"X", ""⟩]⟩]], 0) ∧
    markAt [[⟨⟨"홍길동", "A반"⟩, [⟨"X", ""⟩]⟩]] 0 0 0 = ⟨"X", ""⟩ ∧
    markAt [[⟨⟨"홍길동", "A반"⟩, [⟨"O", ""⟩]⟩]] 0 0 0 = ⟨"O", ""⟩ := by
  decide

/-- C3 (amended): for every `rowIndex` and every `colIndex ≤ 23` (the
single-letter columns C..Z that `getColAddress` can produce),
`parseCellAddress` inverts `getSheetCellAddress`. -/
theorem cellAddress_roundtrip (rowIndex colIndex : Nat) (h : colIndex ≤ 23) :
    parseCellAddress (getSheetCellAddress rowIndex colIndex) =
      some ((rowIndex : Int), (colIndex : Int)) := by
  have hup : isUpperAZ (Char.ofNat (67 + colIndex)) = true := by
    interval_cases colIndex <;> decide
  have htoNat : (Char.ofNat (67 + colIndex)).toNat = 67 + colIndex := by
    interval_cases colIndex <;> decide
  rw [getSheetCellAddress_eq, parseCellAddress_cons _ hup, htoNat]
  simp only [Option.some.injEq, Prod.mk.injEq]
  constructor <;> omega

theorem cellAddress_roundtrip_witness :
    parseCellAddress (getSheetCellAddress 2 1) = some ((2 : Int), (1 : Int)) :=
  cellAddress_roundtrip 2 1 (by decide)

/-- C3 counterexample: at `colIndex = 24` the column character is `[`
(char code 91), the regex does not match, and the round trip fails. -/
theorem cellAddress_roundtrip_cex :
    ¬ parseCellAddress (getSheetCellAddress 0 24) = some ((0 : Int), (24 : Int)) := by
  decide

/-- C4: `parseAttendanceCell` maps empty/whitespace/`-` to NONE, `X` to
ABSENT, `O` to PRESENT and other text to OTHER with the trimmed text, and
maps `ㅁ` to ESSAY with its display description; but for the symbols `ㅣ`
and `ㄷ` it throws (`none`), because their `ATTENDANCE_CONFIG` entries are
commented out in the source while the dispatch still dereferences
`.displayName` on them. -/
theorem parseAttendanceCell_cases :
    parseAttendanceCell "ㅣ" = none ∧
    parseAttendanceCell "ㄷ" = none ∧
    parseAttendanceCell "ㅁ" = some ⟨"ㅁ", "소감문"⟩ ∧
    parseAttendanceCell "" = some ⟨"None", ""⟩ ∧
    parseAttendanceCell "  " = some ⟨"None", ""⟩ ∧
    parseAttendanceCell "-" = some ⟨"None", ""⟩ ∧
    parseAttendanceCell "X" = some ⟨"X", ""⟩ ∧
    parseAttendanceCell "O" = some ⟨"O", ""⟩ ∧
    parseAttendanceCell " 병가 " = some ⟨"Etc", "병가"⟩ := by
  decide

/-- C5: the late result of a superseded `load()` is applied, not
discarded.  Call #1 allocates controller 0; call #2 aborts it and
installs controller 1; call #2's response is applied and its `finally`
nulls the shared ref; when call #1's response then arrives (the fetch was
never wired to the abort signal), the guard reads the now-null shared ref,
sees no abort, and overwrites the model with the stale payload. -/
theorem fetchData_race_applies_stale :
    fetchStart ⟨[], none, none⟩ = (⟨[false], some 0, none⟩, 0) ∧
    fetchStart ⟨[false], some 0, none⟩ = (⟨[true, false], some 1, none⟩, 1) ∧
    fetchResolve ⟨[true, false], some 1, none⟩ "fresh-2" =
      ⟨[true, false], none, some "fresh-2"⟩ ∧
    fetchResolve ⟨[true, false], none, some "fresh-2"⟩ "stale-1" =
      ⟨[true, false], none, some "stale-1"⟩ := by
  decide

/-- C6: `getHeader` yields at most `row0.length - 2` entries, and the
per-column step yields no entry when the label cell or the date cell at
that column is empty. -/
theorem getHeader_skip (values : List (List String)) :
    (getHeader values).length ≤ (values.getD 0 []).length - 2 ∧
    ∀ i : Nat,
      ((values.getD 0 []).getD i "" = "" ∨ (values.getD 1 []).getD i "" = "") →
      headerEntryAt (values.getD 0 []) (values.getD 1 []) i = none := by
  constructor
  · by_cases h2 : values.length < 2
    · simp [getHeader, h2]
    · simp only [getHeader, if_neg h2]
      have hle := List.length_filterMap_le
        (headerEntryAt (values.getD 0 []) (values.getD 1 []))
        (List.range' 2 ((values.getD 0 []).length - 2))
      simpa using hle
  · intro i hi
    simp only [headerEntryAt]
    rcases hi with h | h <;> rw [h] <;> simp

theorem getHeader_skip_witness :
    headerEntryAt ["", "", "3강"] ["", "", ""] 2 = none :=
  (getHeader_skip [["", "", "3강"], ["", "", ""]]).2 2 (Or.inr rfl)

/-- C7: on a 401 the gateway clears the token slot, re-authenticates
exactly once and retries the fetch exactly once; the retry's failure (any
non-2xx) is surfaced as the fatal API error with no further retry. -/
theorem makeApiRequest_auth_retry (a : AuthState) (now : Int)
    (ensureExch reauthExch : Except String (String × Int))
    (resp1 resp2 : HttpResponse) (tok : Option String)
    (hE : (ensureValidToken a now ensureExch).result = .ok tok)
    (h401 : resp1.status = 401)
    (hreauth : (authenticate (clearAuthentication (ensureValidToken a now ensureExch).state)
        now reauthExch).result = .ok ()) :
    (makeApiRequest a now ensureExch reauthExch resp1 resp2).fetches = 2 ∧
    (makeApiRequest a now ensureExch reauthExch resp1 resp2).exchanges =
      (ensureValidToken a now ensureExch).exchanges + 1 ∧
    (respOk resp2 = true →
      (makeApiRequest a now ensureExch reauthExch resp1 resp2).result = .ok resp2.body) ∧
    (respOk resp2 = false →
      (makeApiRequest a now ensureExch reauthExch resp1 resp2).result =
        .error (.apiError resp2.status)) := by
  have hr1 : respOk resp1 = false := by
    simp [respOk, h401]
  have hxinv : isTokenValid (clearAuthentication (ensureValidToken a now ensureExch).state)
      now = false := by
    simp [clearAuthentication, isTokenValid, jsTruthyStr]
  have hx : (authenticate (clearAuthentication (ensureValidToken a now ensureExch).state)
      now reauthExch).exchanges = 1 := by
    cases reauthExch with
    | error e =>
      simp only [authenticate, hxinv] at hreauth ⊢
      simp [getAccessToken] at hreauth
    | ok p => simp [authenticate, hxinv, getAccessToken]
  simp only [makeApiRequest, hE, hr1, h401]
  cases hra : (authenticate (clearAuthentication (ensureValidToken a now ensureExch).state)
      now reauthExch).result with
  | error e => rw [hra] at hreauth; simp at hreauth
  | ok u =>
    cases hr2 : respOk resp2 with
    | true => simp [hr2, hx]
    | false => simp [hr2, hx]

theorem makeApiRequest_auth_retry_witness :
    (makeApiRequest ⟨none, none⟩ 0 (.ok ("t1", 3600)) (.ok ("t2", 3600))
      ⟨401, "no"⟩ ⟨500, "boom"⟩).fetches = 2 ∧
    (makeApiRequest ⟨none, none⟩ 0 (.ok ("t1", 3600)) (.ok ("t2", 3600))
      ⟨401, "no"⟩ ⟨500, "boom"⟩).result = .error (.apiError 500) :=
  ⟨(makeApiRequest_auth_retry ⟨none, none⟩ 0 (.ok ("t1", 3600)) (.ok ("t2", 3600))
      ⟨401, "no"⟩ ⟨500, "boom"⟩ (some "t1") (by decide) (by decide) (by decide)).1,
   (makeApiRequest_auth_retry ⟨none, none⟩ 0 (.ok ("t1", 3600)) (.ok ("t2", 3600))
      ⟨401, "no"⟩ ⟨500, "boom"⟩ (some "t1") (by decide) (by decide) (by decide)).2.2.2
      (by decide)⟩

/-- C8: while the cached token is inside its validity window,
`ensureValidToken` returns it unchanged with no token-exchange call;
hence a first call that had to exchange plus a second call inside the
window perform exactly one exchange in total. -/
theorem ensureValidToken_caching :
    (∀ (a : AuthState) (now : Int) (resp : Except String (String × Int)),
        isTokenValid a now = true →
        ensureValidToken a now resp = ⟨a, 0, .ok a.accessToken⟩) ∧
    (∀ (a : AuthState) (now1 now2 : Int) (tok : String) (life : Int)
        (resp2 : Except String (String × Int)),
        isTokenValid a now1 = false →
        isTokenValid (ensureValidToken a now1 (.ok (tok, life))).state now2 = true →
        (ensureValidToken a now1 (.ok (tok, life))).exchanges +
          (ensureValidToken (ensureValidToken a now1 (.ok (tok, life))).state now2
            resp2).exchanges = 1) := by
  constructor
  · intro a now resp h
    simp [ensureValidToken, h]
  · intro a now1 now2 tok life resp2 h1 h2
    simp only [ensureValidToken, authenticate, getAccessToken, h1] at h2 ⊢
    simp only [Bool.false_eq_true, if_false] at h2 ⊢
    simp [h2]

theorem ensureValidToken_caching_witness :
    ensureValidToken ⟨some "tok", some 100⟩ 50 (.error "down") =
      ⟨⟨some "tok", some 100⟩, 0, .ok (some "tok")⟩ ∧
    (ensureValidToken ⟨none, none⟩ 0 (.ok ("t", 3600))).exchanges +
      (ensureValidToken (ensureValidToken ⟨none, none⟩ 0 (.ok ("t", 3600))).state 5
        (.error "down")).exchanges = 1 :=
  ⟨ensureValidToken_caching.1 ⟨some "tok", some 100⟩ 50 (.error "down") (by decide),
   ensureValidToken_caching.2 ⟨none, none⟩ 0 5 "t" 3600 (.error "down")
     (by decide) (by decide)⟩

/-- C9: every record produced by `getDataRows` carries exactly one mark
per header, and an absent cell parses to the NONE mark rather than to a
missing entry. -/
theorem getDataRows_marks_length (values : List (List String)) (headerLength : Nat)
    (rows : List DataRow) (h : getDataRows values headerLength = some rows) :
    (∀ r ∈ rows, r.attendance.length = headerLength) ∧
    parseAttendanceCell "" = some ⟨"None", ""⟩ := by
  refine ⟨?_, by decide⟩
  intro r hr
  by_cases hlen : values.length ≤ 2
  · rw [getDataRows, if_pos hlen] at h
    have h2 : (some [] : Option (List DataRow)) = some rows := h
    have h3 : ([] : List DataRow) = rows := by injection h2
    rw [← h3] at hr
    simp at hr
  · rw [getDataRows, if_neg hlen] at h
    obtain ⟨rows0, hOM, hfil⟩ := Option.map_eq_some'.1 h
    rw [← hfil] at hr
    have hr0 := (List.mem_filter.1 hr).1
    obtain ⟨row, _, hrow⟩ := optionMapList_mem _ (values.drop 2) rows0 hOM r hr0
    obtain ⟨att, hatt, hrec⟩ := Option.map_eq_some'.1 hrow
    have hattlen : att.length = headerLength := by
      have := optionMapList_length
        (fun i => parseAttendanceCell (row.getD (i + 2) "")) (List.range headerLength)
        att hatt
      simpa using this
    rw [← hrec]
    exact hattlen

theorem getDataRows_marks_length_witness :
    (⟨⟨"홍길동", "A반"⟩, [⟨"O", ""⟩, ⟨"None", ""⟩]⟩ : DataRow).attendance.length = 2 :=
  (getDataRows_marks_length
      [["", "", "1강", "2강"], ["", "", "9. 10", "9. 17"], ["홍길동", "A반", "O"]] 2
      [⟨⟨"홍길동", "A반"⟩, [⟨"O", ""⟩, ⟨"None", ""⟩]⟩] (by decide)).1
    ⟨⟨"홍길동", "A반"⟩, [⟨"O", ""⟩, ⟨"None", ""⟩]⟩ (by simp)

/-- C10: the CAS read-current-value extraction totally returns the empty
string when the values grid is absent, empty, starts with an empty row,
or has an empty first cell. -/
theorem getCurrentCellValue_empty_grid :
    getCurrentCellValue none = "" ∧
    getCurrentCellValue (some []) = "" ∧
    (∀ rest : List (List String), getCurrentCellValue (some ([] :: rest)) = "") ∧
    (∀ (row : List String) (rest : List (List String)),
      row.head? = some "" → getCurrentCellValue (some (row :: rest)) = "") := by
  refine ⟨rfl, rfl, fun rest => rfl, ?_⟩
  intro row rest h
  simp [getCurrentCellValue, h]

theorem getCurrentCellValue_empty_grid_witness :
    getCurrentCellValue (some [[""], ["x"]]) = "" :=
  getCurrentCellValue_empty_grid.2.2.2 [""] [["x"]] rfl

end STA
